import Mathlib

/-!
Verification of the Outage Response Simulator (`pages/Generator_Decision.py`).

The Python module computes, for a power outage of known length, a day-by-day
comparison between stopping production and renting a backup generator.  The
computation is pure arithmetic over the scenario inputs, so it is embedded
here over `ℚ` (the Python floats are IEEE doubles; all the claims under
study are algebraic identities and order facts that the source states and
that are exact in rational arithmetic).

Every definition mirrors a function or local of the source file:
  - `ScenarioInputs`               : the frozen dataclass (lines 16-30)
  - `_clamp_non_negative`          : line 33
  - `_safe_int`                    : line 37 (`int` of an `int` is the identity)
  - `_compute_fuel_cost_per_day`   : lines 44-55
  - `compute_stop_vs_rent`         : lines 58-183, split into one definition
    per local variable of the source so that each intermediate quantity can
    be named in theorems; `clampInputs` gathers the clamped locals of lines
    59-74 and the derived fuel cost of line 78.
  - `sweep_upper`, `rental_values`, `incremental_values` : the sensitivity
    sweep `_plot_sensitivity_rental_cost`, lines 226-246 (the chart object
    itself is presentation and is not modelled).
-/

/-- Fuel accounting method: the source stores the strings
`"per_day"` and `"per_unit"` (line 24). -/
structure ScenarioInputs where
  outage_days : Int
  production_per_day : ℚ
  price_per_unit : ℚ
  non_power_variable_cost_per_unit : ℚ
  fixed_costs_per_day : ℚ
  stop_penalty_per_day : ℚ
  fuel_method : String
  diesel_price_per_liter : ℚ
  liters_per_day : ℚ
  liters_per_unit : ℚ
  rental_cost_per_day : ℚ
  mobilization_cost : ℚ
  minimum_rental_days : Int

/-- Line 33: `max(0.0, float(value))`. -/
def _clamp_non_negative (value : ℚ) : ℚ :=
  max 0 value

/-- Line 37: `int(value)`; on an `int` argument (the only uses) this is the
identity and never hits the `except` branch. -/
def _safe_int (value : Int) : Int :=
  value

/-- Lines 44-55. -/
def _compute_fuel_cost_per_day (inputs : ScenarioInputs) : ℚ :=
  let diesel_price := _clamp_non_negative inputs.diesel_price_per_liter
  if inputs.outage_days ≤ 0 then 0
  else if inputs.fuel_method = "per_unit" then
    (_clamp_non_negative inputs.liters_per_unit * _clamp_non_negative inputs.production_per_day)
      * diesel_price
  else
    _clamp_non_negative inputs.liters_per_day * diesel_price

/-- The clamped locals of `compute_stop_vs_rent` (lines 59-78).  Field names
follow the local variable names of the source.  `max(0, n)` on an `Int`
yields a non-negative value, recorded as a `Nat` via `toNat`. -/
structure ClampedParams where
  outage_days : Nat
  min_rental_days : Nat
  fixed_costs : ℚ
  stop_penalty : ℚ
  production : ℚ
  price : ℚ
  non_power_var : ℚ
  rental_daily : ℚ
  mobilization : ℚ
  fuel_cost_per_day : ℚ

/-- Lines 59-78: the clamping prologue of `compute_stop_vs_rent`. -/
def clampInputs (inputs : ScenarioInputs) : ClampedParams where
  outage_days := (max 0 (_safe_int inputs.outage_days)).toNat
  min_rental_days := (max 0 (_safe_int inputs.minimum_rental_days)).toNat
  fixed_costs := _clamp_non_negative inputs.fixed_costs_per_day
  stop_penalty := _clamp_non_negative inputs.stop_penalty_per_day
  production := _clamp_non_negative inputs.production_per_day
  price := _clamp_non_negative inputs.price_per_unit
  non_power_var := _clamp_non_negative inputs.non_power_variable_cost_per_unit
  rental_daily := _clamp_non_negative inputs.rental_cost_per_day
  mobilization := _clamp_non_negative inputs.mobilization_cost
  fuel_cost_per_day := _compute_fuel_cost_per_day inputs

/-- Line 63: `billed_days = 0 if outage_days == 0 else max(outage_days, min_rental_days)`. -/
def billed_days (P : ClampedParams) : Nat :=
  if P.outage_days = 0 then 0 else max P.outage_days P.min_rental_days

/-- Line 64: `horizon_days = max(outage_days, billed_days)`. -/
def horizon_days (P : ClampedParams) : Nat :=
  max P.outage_days (billed_days P)

/-- Line 76. -/
def revenue_per_day (P : ClampedParams) : ℚ :=
  P.production * P.price

/-- Line 77. -/
def non_power_variable_per_day (P : ClampedParams) : ℚ :=
  P.production * P.non_power_var

/-- Line 80: `(mobilization / billed_days) if billed_days > 0 else 0.0`. -/
def mobilization_per_billed_day (P : ClampedParams) : ℚ :=
  if 0 < billed_days P then P.mobilization / (billed_days P : ℚ) else 0

/-- Lines 89-93: the STOP branch of the day loop. -/
def stop_profit_on_day (fixed_costs stop_penalty : ℚ) (outage_days day : Nat) : ℚ :=
  if day ≤ outage_days then -(fixed_costs + stop_penalty) else 0

/-- Lines 95-110: the RENT branch of the day loop. -/
def rent_profit_on_day (rev npv fuel fixed rental mobpb : ℚ) (outage_days billed_days day : Nat) : ℚ :=
  if day ≤ outage_days then
    rev - npv - fuel - fixed
      - (if day ≤ billed_days then rental else 0)
      - (if day ≤ billed_days then mobpb else 0)
  else
    if day ≤ billed_days then -(rental + mobpb) else 0

/-- Lines 82-113: `for day in range(1, horizon_days + 1)` collecting the STOP
profits; `List.range h` enumerates `0, …, h-1`, so the day index is `i + 1`. -/
def stop_profit_daily (P : ClampedParams) : List ℚ :=
  (List.range (horizon_days P)).map
    (fun i => stop_profit_on_day P.fixed_costs P.stop_penalty P.outage_days (i + 1))

/-- Lines 82-113: the RENT profits of the same loop. -/
def rent_profit_daily (P : ClampedParams) : List ℚ :=
  (List.range (horizon_days P)).map
    (fun i => rent_profit_on_day (revenue_per_day P) (non_power_variable_per_day P)
      P.fuel_cost_per_day P.fixed_costs P.rental_daily (mobilization_per_billed_day P)
      P.outage_days (billed_days P) (i + 1))

/-- Lines 115-121: `_cumulative`, a running sum with accumulator `total`. -/
def cumulativeFrom (total : ℚ) : List ℚ → List ℚ
  | [] => []
  | v :: vs => (total + v) :: cumulativeFrom (total + v) vs

/-- Lines 115-121: `_cumulative` starts its accumulator at `0.0`. -/
def cumulative (values : List ℚ) : List ℚ :=
  cumulativeFrom 0 values

/-- Line 123. -/
def stop_cum (P : ClampedParams) : List ℚ :=
  cumulative (stop_profit_daily P)

/-- Line 124. -/
def rent_cum (P : ClampedParams) : List ℚ :=
  cumulative (rent_profit_daily P)

/-- Line 125: `[r - s for r, s in zip(rent_cum, stop_cum)]`. -/
def diff_cum (P : ClampedParams) : List ℚ :=
  List.zipWith (fun r s => r - s) (rent_cum P) (stop_cum P)

/-- Line 127: `stop_cum[-1] if stop_cum else 0.0`. -/
def total_stop (P : ClampedParams) : ℚ :=
  ((stop_cum P).getLast?).getD 0

/-- Line 128. -/
def total_rent (P : ClampedParams) : ℚ :=
  ((rent_cum P).getLast?).getD 0

/-- Line 129. -/
def incremental_total (P : ClampedParams) : ℚ :=
  total_rent P - total_stop P

/-- Lines 132-136 and 146-149: `for i, d in enumerate(values, start=1): if p d:
return i`, the first (1-based, offset `start`) index whose element satisfies
the predicate. -/
def firstIdxFrom (start : Nat) (p : ℚ → Bool) : List ℚ → Option Nat
  | [] => none
  | v :: vs => if p v then some start else firstIdxFrom (start + 1) p vs

/-- Lines 132-136: earliest day with `diff_cum[day] >= 0`. -/
def break_even_day (P : ClampedParams) : Option Nat :=
  firstIdxFrom 1 (fun d => decide ((0 : ℚ) ≤ d)) (diff_cum P)

/-- Lines 141-145: the right-to-left running minimum `stable_index_from_end`;
entry `i` holds `min(diff_cum[i:])`.  The Python accumulator starts at
`math.inf`, so the last entry is `diff_cum[-1]` itself, matching `headD`
seeded with the current element. -/
def suffixMins : List ℚ → List ℚ
  | [] => []
  | x :: xs => min x ((suffixMins xs).headD x) :: suffixMins xs

/-- Lines 139-149: earliest day whose suffix minimum of `diff_cum` is `≥ 0`.
The Python guard `if diff_cum:` is redundant here: an empty list yields
`none` either way. -/
def stable_break_even_day (P : ClampedParams) : Option Nat :=
  firstIdxFrom 1 (fun d => decide ((0 : ℚ) ≤ d)) (suffixMins (diff_cum P))

/-- Lines 151-155: the indifference rental price, present only when
`billed_days > 0`. -/
def max_rental_cost_per_day (P : ClampedParams) : Option ℚ :=
  if 0 < billed_days P then
    some ((total_rent P + P.rental_daily * (billed_days P : ℚ) - total_stop P) / (billed_days P : ℚ))
  else none

/-- The dictionary returned at lines 168-183, including the columns of the
`daily_table` DataFrame (lines 157-166). -/
structure SimResult where
  outage_days : Nat
  billed_days : Nat
  horizon_days : Nat
  revenue_per_day : ℚ
  non_power_variable_per_day : ℚ
  fuel_cost_per_day : ℚ
  mobilization_per_billed_day : ℚ
  stop_profit_daily : List ℚ
  rent_profit_daily : List ℚ
  stop_cum : List ℚ
  rent_cum : List ℚ
  diff_cum : List ℚ
  total_stop : ℚ
  total_rent : ℚ
  incremental_total : ℚ
  break_even_day : Option Nat
  stable_break_even_day : Option Nat
  max_rental_cost_per_day : Option ℚ

/-- Lines 58-183 assembled: every returned entry, computed from the clamped
locals. -/
def compute_core (P : ClampedParams) : SimResult where
  outage_days := P.outage_days
  billed_days := billed_days P
  horizon_days := horizon_days P
  revenue_per_day := revenue_per_day P
  non_power_variable_per_day := non_power_variable_per_day P
  fuel_cost_per_day := P.fuel_cost_per_day
  mobilization_per_billed_day := mobilization_per_billed_day P
  stop_profit_daily := stop_profit_daily P
  rent_profit_daily := rent_profit_daily P
  stop_cum := stop_cum P
  rent_cum := rent_cum P
  diff_cum := diff_cum P
  total_stop := total_stop P
  total_rent := total_rent P
  incremental_total := incremental_total P
  break_even_day := break_even_day P
  stable_break_even_day := stable_break_even_day P
  max_rental_cost_per_day := max_rental_cost_per_day P

/-- Lines 58-183: `compute_stop_vs_rent` clamps its inputs (lines 59-78) and
everything else depends only on the clamped values. -/
def compute_stop_vs_rent (inputs : ScenarioInputs) : SimResult :=
  compute_core (clampInputs inputs)

/-- Lines 226-235 of `_plot_sensitivity_rental_cost`: the swept price upper
bound.  Over `ℚ` the `math.isfinite` test of line 230 always holds. -/
def sweep_upper (inputs : ScenarioInputs) (base : SimResult) : ℚ :=
  let current := _clamp_non_negative inputs.rental_cost_per_day
  let upper := max (2 * current) 1
  let upper :=
    match base.max_rental_cost_per_day with
    | some m => max upper (3 / 2 * max 0 m)
    | none => upper
  if upper < 100 then 100 else upper

/-- Lines 237-238: `steps = 60`, `rental_values = [upper * i / (steps - 1) for i in range(steps)]`. -/
def rental_values (inputs : ScenarioInputs) (base : SimResult) : List ℚ :=
  (List.range 60).map
    (fun (i : Nat) => sweep_upper inputs base * (i : ℚ) / ((60 : ℚ) - 1))

/-- Lines 241-246: one re-run of `compute_stop_vs_rent` per sampled price,
recording `incremental_total`.  (For `billed_days ≤ 0` the source returns a
"not applicable" chart before reaching this loop, lines 216-224.) -/
def incremental_values (inputs : ScenarioInputs) (base : SimResult) : List ℚ :=
  (rental_values inputs base).map (fun v =>
    (compute_stop_vs_rent { inputs with rental_cost_per_day := v }).incremental_total)

/-! ### Basic facts about the list helpers -/

theorem length_cumulativeFrom (t : ℚ) (xs : List ℚ) :
    (cumulativeFrom t xs).length = xs.length := by
  induction xs generalizing t with
  | nil => rfl
  | cons v vs ih => simp [cumulativeFrom, ih]

theorem length_cumulative (xs : List ℚ) : (cumulative xs).length = xs.length :=
  length_cumulativeFrom 0 xs

theorem getLast?_cumulativeFrom_cons (t v : ℚ) (vs : List ℚ) :
    (cumulativeFrom t (v :: vs)).getLast? = some (t + (v :: vs).sum) := by
  induction vs generalizing t v with
  | nil => simp [cumulativeFrom]
  | cons w ws ih =>
    have h2 : cumulativeFrom t (v :: w :: ws)
        = (t + v) :: cumulativeFrom (t + v) (w :: ws) := rfl
    have h3 : cumulativeFrom (t + v) (w :: ws)
        = ((t + v) + w) :: cumulativeFrom ((t + v) + w) ws := rfl
    rw [h2, h3, List.getLast?_cons_cons, ← h3, ih]
    simp
    ring

theorem getLast?_cumulative_sum (xs : List ℚ) :
    ((cumulative xs).getLast?).getD 0 = xs.sum := by
  cases xs with
  | nil => simp [cumulative, cumulativeFrom]
  | cons v vs => simp [cumulative, getLast?_cumulativeFrom_cons]

theorem getD_cumulativeFrom (t : ℚ) (xs : List ℚ) (i : Nat) (h : i < xs.length) :
    (cumulativeFrom t xs).getD i 0 = t + (xs.take (i + 1)).sum := by
  induction xs generalizing t i with
  | nil => simp at h
  | cons v vs ih =>
    cases i with
    | zero => simp [cumulativeFrom]
    | succ j =>
      have hj : j < vs.length := by simpa using h
      have hstep : (cumulativeFrom t (v :: vs)).getD (j + 1) 0
          = (cumulativeFrom (t + v) vs).getD j 0 := by
        simp [cumulativeFrom]
      rw [hstep, ih _ _ hj, List.take_succ_cons]
      simp
      ring

theorem length_suffixMins (xs : List ℚ) : (suffixMins xs).length = xs.length := by
  induction xs with
  | nil => rfl
  | cons x xs ih => simp [suffixMins, ih]

theorem getD_suffixMins_nonneg_iff (xs : List ℚ) (i : Nat) (h : i < xs.length) :
    0 ≤ (suffixMins xs).getD i 0 ↔
      ∀ k, i ≤ k → k < xs.length → 0 ≤ xs.getD k 0 := by
  induction xs generalizing i with
  | nil => simp at h
  | cons x xs ih =>
    cases i with
    | zero =>
      cases xs with
      | nil =>
        simp only [suffixMins, List.headD_nil, List.getD_cons_zero, min_self,
          List.length_cons, List.length_nil]
        constructor
        · intro hx k _ hk
          have hk0 : k = 0 := by omega
          subst hk0
          simpa using hx
        · intro hall
          simpa using hall 0 (by omega) (by omega)
      | cons y ys =>
        have hhead : ((suffixMins (y :: ys)).headD x) = (suffixMins (y :: ys)).getD 0 0 := by
          simp [suffixMins]
        have hx0 : (suffixMins (x :: y :: ys)).getD 0 0
            = min x ((suffixMins (y :: ys)).getD 0 0) := by
          rw [← hhead]
          simp [suffixMins]
        rw [hx0, le_min_iff]
        rw [ih 0 (by simp)]
        constructor
        · rintro ⟨hx, htail⟩ k _ hk
          cases k with
          | zero => simpa using hx
          | succ k' =>
            have : 0 ≤ (y :: ys).getD k' 0 := htail k' (by omega) (by simpa using hk)
            simpa using this
        · intro hall
          refine ⟨by simpa using hall 0 (by omega) (by simp), ?_⟩
          intro k _ hk
          have : 0 ≤ (x :: y :: ys).getD (k + 1) 0 := hall (k + 1) (by omega) (by simpa using hk)
          simpa using this
    | succ j =>
      have hj : j < xs.length := by simpa using h
      have hstep : (suffixMins (x :: xs)).getD (j + 1) 0 = (suffixMins xs).getD j 0 := by
        simp [suffixMins]
      rw [hstep, ih j hj]
      constructor
      · intro hall k hk hk'
        cases k with
        | zero => omega
        | succ k' =>
          have : 0 ≤ xs.getD k' 0 := hall k' (by omega) (by simpa using hk')
          simpa using this
      · intro hall k hk hk'
        have : 0 ≤ (x :: xs).getD (k + 1) 0 := hall (k + 1) (by omega) (by simpa using hk')
        simpa using this

theorem firstIdxFrom_ge (s : Nat) (p : ℚ → Bool) (xs : List ℚ) (i : Nat)
    (h : firstIdxFrom s p xs = some i) : s ≤ i := by
  induction xs generalizing s with
  | nil => simp [firstIdxFrom] at h
  | cons v vs ih =>
    by_cases hv : p v
    · simp [firstIdxFrom, hv] at h
      omega
    · simp [firstIdxFrom, hv] at h
      have := ih (s + 1) h
      omega

theorem firstIdxFrom_eq_some_iff (s j : Nat) (p : ℚ → Bool) (xs : List ℚ) :
    firstIdxFrom s p xs = some (s + j) ↔
      j < xs.length ∧ p (xs.getD j 0) = true ∧ ∀ k, k < j → p (xs.getD k 0) = false := by
  induction xs generalizing s j with
  | nil => simp [firstIdxFrom]
  | cons v vs ih =>
    rw [show firstIdxFrom s p (v :: vs)
        = if p v = true then some s else firstIdxFrom (s + 1) p vs from rfl]
    by_cases hv : p v = true
    · rw [if_pos hv]
      cases j with
      | zero =>
        constructor
        · intro _
          refine ⟨by simp, by simpa using hv, ?_⟩
          intro k hk
          exact absurd hk (by omega)
        · intro _
          simp
      | succ j' =>
        constructor
        · intro hcontra
          exfalso
          have := Option.some.inj hcontra
          omega
        · rintro ⟨-, -, hmin⟩
          exfalso
          have h0 := hmin 0 (by omega)
          simp [hv] at h0
    · rw [if_neg hv]
      have hvf : p v = false := by
        cases hpv : p v
        · rfl
        · exact absurd hpv hv
      cases j with
      | zero =>
        constructor
        · intro hsome
          exfalso
          have := firstIdxFrom_ge (s + 1) p vs (s + 0) hsome
          omega
        · rintro ⟨-, hp, -⟩
          exfalso
          rw [List.getD_cons_zero] at hp
          exact hv hp
      | succ j' =>
        have hshift : s + (j' + 1) = (s + 1) + j' := by omega
        rw [hshift, ih (s + 1) j']
        constructor
        · rintro ⟨hlen, hp, hmin⟩
          refine ⟨by simp only [List.length_cons]; omega, by simpa using hp, ?_⟩
          intro k hk
          cases k with
          | zero => simpa using hvf
          | succ k' => simpa using hmin k' (by omega)
        · rintro ⟨hlen, hp, hmin⟩
          refine ⟨by simp only [List.length_cons] at hlen; omega, by simpa using hp, ?_⟩
          intro k hk
          simpa using hmin (k + 1) (by omega)

theorem firstIdxFrom_eq_none_iff (s : Nat) (p : ℚ → Bool) (xs : List ℚ) :
    firstIdxFrom s p xs = none ↔ ∀ k, k < xs.length → p (xs.getD k 0) = false := by
  induction xs generalizing s with
  | nil => simp [firstIdxFrom]
  | cons v vs ih =>
    rw [show firstIdxFrom s p (v :: vs)
        = if p v = true then some s else firstIdxFrom (s + 1) p vs from rfl]
    by_cases hv : p v = true
    · rw [if_pos hv]
      constructor
      · intro hcontra
        exact absurd hcontra (by simp)
      · intro hall
        have h0 := hall 0 (by simp)
        simp [hv] at h0
    · rw [if_neg hv, ih (s + 1)]
      have hvf : p v = false := by
        cases hpv : p v
        · rfl
        · exact absurd hpv hv
      constructor
      · intro hall k hk
        cases k with
        | zero => simpa using hvf
        | succ k' =>
          have hk' : k' < vs.length := by simp only [List.length_cons] at hk; omega
          simpa using hall k' hk'
      · intro hall k hk
        have := hall (k + 1) (by simp only [List.length_cons]; omega)
        simpa using this

theorem firstIdxFrom_found_le (s k : Nat) (p : ℚ → Bool) (xs : List ℚ)
    (hk : k < xs.length) (hp : p (xs.getD k 0) = true) :
    ∃ i, firstIdxFrom s p xs = some i ∧ i ≤ s + k := by
  induction xs generalizing s k with
  | nil => simp at hk
  | cons v vs ih =>
    by_cases hv : p v
    · exact ⟨s, by simp [firstIdxFrom, hv], by omega⟩
    · cases k with
      | zero =>
        simp at hp
        rw [hp] at hv
        simp at hv
      | succ k' =>
        obtain ⟨i, hi, hile⟩ := ih (s + 1) k' (by simpa using hk) (by simpa using hp)
        exact ⟨i, by simpa [firstIdxFrom, hv] using hi, by omega⟩

/-! ### Sums over the day range -/

theorem sum_map_range_congr (f g : Nat → ℚ) (n : Nat) (h : ∀ i, i < n → f i = g i) :
    ((List.range n).map f).sum = ((List.range n).map g).sum := by
  induction n with
  | zero => rfl
  | succ m ih =>
    rw [List.range_succ]
    simp only [List.map_append, List.sum_append, List.map_cons, List.map_nil,
      List.sum_cons, List.sum_nil]
    rw [ih (fun i hi => h i (by omega)), h m (by omega)]

theorem sum_map_range_sub (f g : Nat → ℚ) (n : Nat) :
    ((List.range n).map (fun i => f i - g i)).sum
      = ((List.range n).map f).sum - ((List.range n).map g).sum := by
  induction n with
  | zero => simp
  | succ m ih =>
    rw [List.range_succ]
    simp only [List.map_append, List.sum_append, List.map_cons, List.map_nil,
      List.sum_cons, List.sum_nil]
    rw [ih]
    ring

theorem sum_map_range_billed (b n : Nat) (r : ℚ) :
    ((List.range n).map (fun i => if i + 1 ≤ b then r else 0)).sum
      = r * ((min b n : Nat) : ℚ) := by
  induction n with
  | zero => simp
  | succ m ih =>
    rw [List.range_succ]
    simp only [List.map_append, List.sum_append, List.map_cons, List.map_nil,
      List.sum_cons, List.sum_nil, add_zero]
    rw [ih]
    by_cases hmb : m + 1 ≤ b
    · rw [if_pos hmb]
      have h1 : min b (m + 1) = m + 1 := by omega
      have h2 : min b m = m := by omega
      rw [h1, h2]
      push_cast
      ring
    · rw [if_neg hmb]
      have h1 : min b (m + 1) = min b m := by omega
      rw [h1, add_zero]

/-! ### The rent total is affine in the daily rental price -/

theorem rent_profit_on_day_rental (rev npv fuel fixed rental mobpb : ℚ)
    (outage billed day : Nat) :
    rent_profit_on_day rev npv fuel fixed rental mobpb outage billed day
      = rent_profit_on_day rev npv fuel fixed 0 mobpb outage billed day
        - (if day ≤ billed then rental else 0) := by
  unfold rent_profit_on_day
  by_cases h1 : day ≤ outage
  · by_cases h2 : day ≤ billed
    · simp only [h1, h2, if_true, if_pos]
      ring
    · simp only [h1, h2, if_true, if_false, if_neg, not_false_iff]
      ring
  · by_cases h2 : day ≤ billed
    · simp only [h1, h2, if_false, if_true, if_pos, if_neg, not_false_iff]
      ring
    · simp [h1, h2]

theorem total_stop_eq_sum (P : ClampedParams) :
    total_stop P = (stop_profit_daily P).sum := by
  rw [total_stop, stop_cum, getLast?_cumulative_sum]

theorem total_rent_eq_sum (P : ClampedParams) :
    total_rent P = (rent_profit_daily P).sum := by
  rw [total_rent, rent_cum, getLast?_cumulative_sum]

theorem billed_le_horizon (P : ClampedParams) : billed_days P ≤ horizon_days P :=
  le_max_right _ _

theorem total_rent_set_rental (P : ClampedParams) (r : ℚ) :
    total_rent { P with rental_daily := r }
      = total_rent { P with rental_daily := 0 } - r * ((billed_days P : Nat) : ℚ) := by
  rw [total_rent_eq_sum, total_rent_eq_sum]
  show ((List.range (horizon_days P)).map (fun i =>
      rent_profit_on_day (revenue_per_day P) (non_power_variable_per_day P)
        P.fuel_cost_per_day P.fixed_costs r (mobilization_per_billed_day P)
        P.outage_days (billed_days P) (i + 1))).sum
    = ((List.range (horizon_days P)).map (fun i =>
      rent_profit_on_day (revenue_per_day P) (non_power_variable_per_day P)
        P.fuel_cost_per_day P.fixed_costs 0 (mobilization_per_billed_day P)
        P.outage_days (billed_days P) (i + 1))).sum - r * ((billed_days P : Nat) : ℚ)
  rw [sum_map_range_congr _
    (fun i => rent_profit_on_day (revenue_per_day P) (non_power_variable_per_day P)
        P.fuel_cost_per_day P.fixed_costs 0 (mobilization_per_billed_day P)
        P.outage_days (billed_days P) (i + 1) - (if i + 1 ≤ billed_days P then r else 0))
    _ (fun i _ => rent_profit_on_day_rental _ _ _ _ _ _ _ _ _)]
  rw [sum_map_range_sub, sum_map_range_billed]
  rw [min_eq_left (billed_le_horizon P)]

theorem total_stop_set_rental (P : ClampedParams) (r : ℚ) :
    total_stop { P with rental_daily := r } = total_stop P := rfl

theorem billed_days_set_rental (P : ClampedParams) (r : ℚ) :
    billed_days { P with rental_daily := r } = billed_days P := rfl

theorem incremental_total_set_rental (P : ClampedParams) (r : ℚ) :
    incremental_total { P with rental_daily := r }
      = incremental_total { P with rental_daily := 0 } - r * ((billed_days P : Nat) : ℚ) := by
  unfold incremental_total
  rw [total_rent_set_rental P r, total_stop_set_rental P r, total_stop_set_rental P 0]
  ring

theorem max_rental_eq (P : ClampedParams) (hb : 0 < billed_days P) :
    max_rental_cost_per_day P
      = some ((total_rent { P with rental_daily := 0 } - total_stop P)
          / ((billed_days P : Nat) : ℚ)) := by
  unfold max_rental_cost_per_day
  rw [if_pos hb]
  congr 1
  have h1 : total_rent P
      = total_rent { P with rental_daily := 0 } - P.rental_daily * ((billed_days P : Nat) : ℚ) :=
    total_rent_set_rental P P.rental_daily
  rw [h1]
  ring

/-! ### Configuration-level consequences -/

theorem clampInputs_set_rental (c : ScenarioInputs) (r : ℚ) :
    clampInputs { c with rental_cost_per_day := r }
      = { clampInputs c with rental_daily := _clamp_non_negative r } := rfl

theorem compute_billed_set_rental (c : ScenarioInputs) (r : ℚ) :
    (compute_stop_vs_rent { c with rental_cost_per_day := r }).billed_days
      = (compute_stop_vs_rent c).billed_days := rfl

theorem compute_incremental_of_rental (c : ScenarioInputs) (r : ℚ) (hr : 0 ≤ r) :
    (compute_stop_vs_rent { c with rental_cost_per_day := r }).incremental_total
      = (compute_stop_vs_rent { c with rental_cost_per_day := 0 }).incremental_total
        - r * (((compute_stop_vs_rent c).billed_days : Nat) : ℚ) := by
  show incremental_total (clampInputs { c with rental_cost_per_day := r })
      = incremental_total (clampInputs { c with rental_cost_per_day := 0 })
        - r * ((billed_days (clampInputs c) : Nat) : ℚ)
  have h0 : _clamp_non_negative (0 : ℚ) = 0 := max_self 0
  have hr' : _clamp_non_negative r = r := max_eq_right hr
  rw [clampInputs_set_rental c r, clampInputs_set_rental c 0, h0, hr']
  exact incremental_total_set_rental (clampInputs c) r

theorem compute_max_rental_eq (c : ScenarioInputs)
    (hb : 0 < (compute_stop_vs_rent c).billed_days) :
    (compute_stop_vs_rent c).max_rental_cost_per_day
      = some (((compute_stop_vs_rent { c with rental_cost_per_day := 0 }).total_rent
          - (compute_stop_vs_rent c).total_stop)
          / (((compute_stop_vs_rent c).billed_days : Nat) : ℚ)) := by
  have hcl : clampInputs { c with rental_cost_per_day := 0 }
      = { clampInputs c with rental_daily := 0 } := by
    rw [clampInputs_set_rental c 0]
    rw [show _clamp_non_negative (0 : ℚ) = 0 from max_self 0]
  show max_rental_cost_per_day (clampInputs c)
      = some ((total_rent (clampInputs { c with rental_cost_per_day := 0 })
          - total_stop (clampInputs c)) / ((billed_days (clampInputs c) : Nat) : ℚ))
  rw [hcl]
  exact max_rental_eq _ hb

theorem sum_nonpos_of_mem (l : List ℚ) (h : ∀ x ∈ l, x ≤ 0) : l.sum ≤ 0 := by
  induction l with
  | nil => simp
  | cons v vs ih =>
    rw [List.sum_cons]
    have hv := h v (by simp)
    have hvs := ih (fun x hx => h x (by simp [hx]))
    linarith

theorem length_stop_profit_daily (P : ClampedParams) :
    (stop_profit_daily P).length = horizon_days P := by
  simp [stop_profit_daily]

theorem length_rent_profit_daily (P : ClampedParams) :
    (rent_profit_daily P).length = horizon_days P := by
  simp [rent_profit_daily]

theorem length_diff_cum (P : ClampedParams) :
    (diff_cum P).length = horizon_days P := by
  rw [diff_cum]
  rw [List.length_zipWith, rent_cum, stop_cum, length_cumulative, length_cumulative,
    length_stop_profit_daily, length_rent_profit_daily, min_self]

theorem getD_of_lt (l : List ℚ) (i : Nat) (h : i < l.length) :
    l.getD i 0 = l.get ⟨i, h⟩ := by
  simp [List.getD_eq_getElem?_getD, List.getElem?_eq_getElem h]

/-! ### Claim theorems -/

/-- C7: for every scenario configuration, `billed_days` is `0` when the
(clamped) outage length is `0` and `max(outage_days, minimum_rental_days)`
otherwise, and `horizon_days = max(outage_days, billed_days)`; the
`minimum_rental_days` here is the source's `max(0, _safe_int(...))` clamp of
the configured value, and `outage_days` is the clamped value the result
itself reports. -/
theorem C7_billed_and_horizon_formulas (c : ScenarioInputs) :
    (compute_stop_vs_rent c).billed_days
        = (if (compute_stop_vs_rent c).outage_days = 0 then 0
           else max (compute_stop_vs_rent c).outage_days
             ((max 0 (_safe_int c.minimum_rental_days)).toNat))
      ∧ (compute_stop_vs_rent c).horizon_days
        = max (compute_stop_vs_rent c).outage_days (compute_stop_vs_rent c).billed_days :=
  ⟨rfl, rfl⟩

/-- C9: the simulated horizon always coincides exactly with the billed
period: `horizon_days = billed_days` for every configuration. -/
theorem C9_horizon_eq_billed (c : ScenarioInputs) :
    (compute_stop_vs_rent c).horizon_days = (compute_stop_vs_rent c).billed_days := by
  show horizon_days (clampInputs c) = billed_days (clampInputs c)
  unfold horizon_days billed_days
  by_cases h : (clampInputs c).outage_days = 0
  · simp [h]
  · rw [if_neg h]
    exact max_eq_right (le_max_left _ _)

/-- C4: zero-outage degeneracy: `outage_days = 0` forces
`billed_days = horizon_days = 0`, all per-day and cumulative series empty,
all totals `0`, both break-even days absent and the indifference price
absent. -/
theorem C4_zero_outage_degeneracy (c : ScenarioInputs) (h : c.outage_days = 0) :
    (compute_stop_vs_rent c).billed_days = 0 ∧
    (compute_stop_vs_rent c).horizon_days = 0 ∧
    (compute_stop_vs_rent c).stop_profit_daily = [] ∧
    (compute_stop_vs_rent c).rent_profit_daily = [] ∧
    (compute_stop_vs_rent c).stop_cum = [] ∧
    (compute_stop_vs_rent c).rent_cum = [] ∧
    (compute_stop_vs_rent c).diff_cum = [] ∧
    (compute_stop_vs_rent c).total_stop = 0 ∧
    (compute_stop_vs_rent c).total_rent = 0 ∧
    (compute_stop_vs_rent c).incremental_total = 0 ∧
    (compute_stop_vs_rent c).break_even_day = none ∧
    (compute_stop_vs_rent c).stable_break_even_day = none ∧
    (compute_stop_vs_rent c).max_rental_cost_per_day = none := by
  have houtage : (clampInputs c).outage_days = 0 := by
    simp [clampInputs, _safe_int, h]
  have hb : billed_days (clampInputs c) = 0 := by
    simp [billed_days, houtage]
  have hh : horizon_days (clampInputs c) = 0 := by
    simp [horizon_days, houtage, hb]
  have hsp : stop_profit_daily (clampInputs c) = [] := by
    rw [stop_profit_daily, hh]
    rfl
  have hrp : rent_profit_daily (clampInputs c) = [] := by
    rw [rent_profit_daily, hh]
    rfl
  have hsc : stop_cum (clampInputs c) = [] := by
    rw [stop_cum, hsp]
    rfl
  have hrc : rent_cum (clampInputs c) = [] := by
    rw [rent_cum, hrp]
    rfl
  have hdc : diff_cum (clampInputs c) = [] := by
    rw [diff_cum, hrc, hsc]
    rfl
  have hts : total_stop (clampInputs c) = 0 := by
    rw [total_stop, hsc]
    rfl
  have htr : total_rent (clampInputs c) = 0 := by
    rw [total_rent, hrc]
    rfl
  have hit : incremental_total (clampInputs c) = 0 := by
    rw [incremental_total, hts, htr]
    ring
  have hbe : break_even_day (clampInputs c) = none := by
    rw [break_even_day, hdc]
    rfl
  have hsbe : stable_break_even_day (clampInputs c) = none := by
    rw [stable_break_even_day, hdc]
    rfl
  have hmr : max_rental_cost_per_day (clampInputs c) = none := by
    rw [max_rental_cost_per_day, hb]
    rfl
  exact ⟨hb, hh, hsp, hrp, hsc, hrc, hdc, hts, htr, hit, hbe, hsbe, hmr⟩

/-- C8: the division-derived scalars are guarded when `billed_days = 0`:
`mobilization_per_billed_day` is `0` and `max_rental_cost_per_day` is absent.
(The embedding is a total function, so the computation as modelled never
raises; these two guards are the only places the source divides.) -/
theorem C8_division_guards (c : ScenarioInputs)
    (h : (compute_stop_vs_rent c).billed_days = 0) :
    (compute_stop_vs_rent c).mobilization_per_billed_day = 0 ∧
    (compute_stop_vs_rent c).max_rental_cost_per_day = none := by
  have hb : billed_days (clampInputs c) = 0 := h
  constructor
  · show mobilization_per_billed_day (clampInputs c) = 0
    simp [mobilization_per_billed_day, hb]
  · show max_rental_cost_per_day (clampInputs c) = none
    simp [max_rental_cost_per_day, hb]

/-- C10: the stop strategy's per-day profit is never positive, the cumulative
stop series is monotonically non-increasing over the day range, and
`total_stop ≤ 0`. -/
theorem C10_stop_profit_nonpositive (c : ScenarioInputs) :
    (∀ d, 1 ≤ d → d ≤ (compute_stop_vs_rent c).horizon_days →
        (compute_stop_vs_rent c).stop_profit_daily.getD (d - 1) 0 ≤ 0) ∧
    (∀ i j, 1 ≤ i → i ≤ j → j ≤ (compute_stop_vs_rent c).horizon_days →
        (compute_stop_vs_rent c).stop_cum.getD (j - 1) 0
          ≤ (compute_stop_vs_rent c).stop_cum.getD (i - 1) 0) ∧
    (compute_stop_vs_rent c).total_stop ≤ 0 := by
  have hfix : 0 ≤ (clampInputs c).fixed_costs := le_max_left 0 _
  have hpen : 0 ≤ (clampInputs c).stop_penalty := le_max_left 0 _
  have hday : ∀ d, stop_profit_on_day (clampInputs c).fixed_costs
      (clampInputs c).stop_penalty (clampInputs c).outage_days d ≤ 0 := by
    intro d
    unfold stop_profit_on_day
    by_cases hd : d ≤ (clampInputs c).outage_days
    · rw [if_pos hd]
      linarith
    · rw [if_neg hd]
  have hmem : ∀ x ∈ stop_profit_daily (clampInputs c), x ≤ 0 := by
    intro x hx
    rw [stop_profit_daily] at hx
    obtain ⟨i, -, rfl⟩ := List.mem_map.mp hx
    exact hday _
  refine ⟨?_, ?_, ?_⟩
  · intro d h1 hd
    show (stop_profit_daily (clampInputs c)).getD (d - 1) 0 ≤ 0
    have hd1 : d - 1 < (stop_profit_daily (clampInputs c)).length := by
      rw [length_stop_profit_daily]
      have : d ≤ horizon_days (clampInputs c) := hd
      omega
    rw [getD_of_lt _ _ hd1]
    exact hmem _ (List.get_mem _ _ _)
  · intro i j h1 hij hj
    show (stop_cum (clampInputs c)).getD (j - 1) 0
        ≤ (stop_cum (clampInputs c)).getD (i - 1) 0
    have hjh : j ≤ horizon_days (clampInputs c) := hj
    have hi1 : i - 1 < (stop_profit_daily (clampInputs c)).length := by
      rw [length_stop_profit_daily]
      omega
    have hj1 : j - 1 < (stop_profit_daily (clampInputs c)).length := by
      rw [length_stop_profit_daily]
      omega
    rw [stop_cum, cumulative, getD_cumulativeFrom 0 _ _ hi1, getD_cumulativeFrom 0 _ _ hj1]
    have hii : i - 1 + 1 = i := by omega
    have hjj : j - 1 + 1 = j := by omega
    rw [hii, hjj, zero_add, zero_add]
    have hsplit := List.sum_take_add_sum_drop
      ((stop_profit_daily (clampInputs c)).take j) i
    rw [List.take_take, min_eq_left hij] at hsplit
    have hdropnp : (((stop_profit_daily (clampInputs c)).take j).drop i).sum ≤ 0 := by
      refine sum_nonpos_of_mem _ (fun x hx => hmem x ?_)
      exact List.take_subset _ _ (List.drop_subset _ _ hx)
    linarith
  · show total_stop (clampInputs c) ≤ 0
    rw [total_stop_eq_sum]
    exact sum_nonpos_of_mem _ hmem

/-- C5: every numeric field is clamped to `≥ 0` at its point of use, so a
configuration with a negative value in any one numeric field computes exactly
the same result as the configuration with that field set to `0`. -/
theorem C5_negative_fields_clamped (c : ScenarioInputs) (v : ℚ) (n : Int)
    (hv : v < 0) (hn : n < 0) :
    compute_stop_vs_rent { c with production_per_day := v }
        = compute_stop_vs_rent { c with production_per_day := 0 } ∧
    compute_stop_vs_rent { c with price_per_unit := v }
        = compute_stop_vs_rent { c with price_per_unit := 0 } ∧
    compute_stop_vs_rent { c with non_power_variable_cost_per_unit := v }
        = compute_stop_vs_rent { c with non_power_variable_cost_per_unit := 0 } ∧
    compute_stop_vs_rent { c with fixed_costs_per_day := v }
        = compute_stop_vs_rent { c with fixed_costs_per_day := 0 } ∧
    compute_stop_vs_rent { c with stop_penalty_per_day := v }
        = compute_stop_vs_rent { c with stop_penalty_per_day := 0 } ∧
    compute_stop_vs_rent { c with diesel_price_per_liter := v }
        = compute_stop_vs_rent { c with diesel_price_per_liter := 0 } ∧
    compute_stop_vs_rent { c with liters_per_day := v }
        = compute_stop_vs_rent { c with liters_per_day := 0 } ∧
    compute_stop_vs_rent { c with liters_per_unit := v }
        = compute_stop_vs_rent { c with liters_per_unit := 0 } ∧
    compute_stop_vs_rent { c with rental_cost_per_day := v }
        = compute_stop_vs_rent { c with rental_cost_per_day := 0 } ∧
    compute_stop_vs_rent { c with mobilization_cost := v }
        = compute_stop_vs_rent { c with mobilization_cost := 0 } ∧
    compute_stop_vs_rent { c with outage_days := n }
        = compute_stop_vs_rent { c with outage_days := 0 } ∧
    compute_stop_vs_rent { c with minimum_rental_days := n }
        = compute_stop_vs_rent { c with minimum_rental_days := 0 } := by
  have hmax : max 0 v = (0 : ℚ) := max_eq_left hv.le
  have hmaxn : max 0 n = (0 : Int) := max_eq_left hn.le
  refine ⟨?_, ?_, ?_, ?_, ?_, ?_, ?_, ?_, ?_, ?_, ?_, ?_⟩ <;>
    exact congrArg compute_core (by
      simp [clampInputs, _compute_fuel_cost_per_day, _clamp_non_negative, _safe_int,
        hmax, hmaxn, hn.le])

/-- C3: the computed `stable_break_even_day` is exactly the smallest day `d`
in `[1, horizon_days]` such that `diff_cum[k] ≥ 0` for every day `k` with
`d ≤ k ≤ horizon_days`, and it is absent exactly when no such day exists. -/
theorem C3_stable_break_even_characterization (c : ScenarioInputs) :
    (∀ d, (compute_stop_vs_rent c).stable_break_even_day = some d →
      1 ≤ d ∧ d ≤ (compute_stop_vs_rent c).horizon_days ∧
      (∀ k, d ≤ k → k ≤ (compute_stop_vs_rent c).horizon_days →
        0 ≤ (compute_stop_vs_rent c).diff_cum.getD (k - 1) 0) ∧
      (∀ e, 1 ≤ e → e < d →
        ¬ (∀ k, e ≤ k → k ≤ (compute_stop_vs_rent c).horizon_days →
          0 ≤ (compute_stop_vs_rent c).diff_cum.getD (k - 1) 0))) ∧
    ((compute_stop_vs_rent c).stable_break_even_day = none →
      ∀ d, 1 ≤ d → d ≤ (compute_stop_vs_rent c).horizon_days →
        ¬ (∀ k, d ≤ k → k ≤ (compute_stop_vs_rent c).horizon_days →
          0 ≤ (compute_stop_vs_rent c).diff_cum.getD (k - 1) 0)) := by
  have hlen : (diff_cum (clampInputs c)).length = horizon_days (clampInputs c) :=
    length_diff_cum _
  have hslen : (suffixMins (diff_cum (clampInputs c))).length
      = (diff_cum (clampInputs c)).length := length_suffixMins _
  constructor
  · intro d hsome
    have hsome' : firstIdxFrom 1 (fun x => decide ((0 : ℚ) ≤ x))
        (suffixMins (diff_cum (clampInputs c))) = some d := hsome
    have h1 : 1 ≤ d := firstIdxFrom_ge _ _ _ _ hsome'
    obtain ⟨j, rfl⟩ : ∃ j, d = 1 + j := ⟨d - 1, by omega⟩
    rw [firstIdxFrom_eq_some_iff] at hsome'
    obtain ⟨hjlen, hpj, hmin⟩ := hsome'
    rw [hslen, hlen] at hjlen
    have hpj' : 0 ≤ (suffixMins (diff_cum (clampInputs c))).getD j 0 :=
      of_decide_eq_true hpj
    have hchar := getD_suffixMins_nonneg_iff (diff_cum (clampInputs c)) j
      (by rw [hlen]; exact hjlen)
    have hjlen2 : 1 + j ≤ (compute_stop_vs_rent c).horizon_days := by
      show 1 + j ≤ horizon_days (clampInputs c)
      omega
    refine ⟨by omega, hjlen2, ?_, ?_⟩
    · intro k hk hkh
      have hkh' : k ≤ horizon_days (clampInputs c) := hkh
      exact (hchar.mp hpj') (k - 1) (by omega) (by rw [hlen]; omega)
    · intro e he1 hed hPe
      have hfalse := hmin (e - 1) (by omega)
      have hchar2 := getD_suffixMins_nonneg_iff (diff_cum (clampInputs c)) (e - 1)
        (by rw [hlen]; omega)
      have hpos : 0 ≤ (suffixMins (diff_cum (clampInputs c))).getD (e - 1) 0 := by
        refine hchar2.mpr ?_
        intro k hk1 hk2
        have hk2' : k + 1 ≤ horizon_days (clampInputs c) := by
          rw [hlen] at hk2
          omega
        exact hPe (k + 1) (by omega) hk2'
      rw [decide_eq_true hpos] at hfalse
      exact absurd hfalse (by simp)
  · intro hnone d hd1 hdh hPd
    have hdh' : d ≤ horizon_days (clampInputs c) := hdh
    have hnone' : firstIdxFrom 1 (fun x => decide ((0 : ℚ) ≤ x))
        (suffixMins (diff_cum (clampInputs c))) = none := hnone
    rw [firstIdxFrom_eq_none_iff] at hnone'
    have hfalse := hnone' (d - 1) (by rw [hslen, hlen]; omega)
    have hpos : 0 ≤ (suffixMins (diff_cum (clampInputs c))).getD (d - 1) 0 := by
      refine (getD_suffixMins_nonneg_iff (diff_cum (clampInputs c)) (d - 1)
        (by rw [hlen]; omega)).mpr ?_
      intro k hk1 hk2
      have hk2' : k + 1 ≤ horizon_days (clampInputs c) := by
        rw [hlen] at hk2
        omega
      exact hPd (k + 1) (by omega) hk2'
    rw [decide_eq_true hpos] at hfalse
    exact absurd hfalse (by simp)

/-- C6: whenever both break-even days are present, the stable break-even day
is at least the first-crossing break-even day. -/
theorem C6_stable_ge_first_crossing (c : ScenarioInputs) (b s : Nat)
    (hb : (compute_stop_vs_rent c).break_even_day = some b)
    (hs : (compute_stop_vs_rent c).stable_break_even_day = some s) :
    b ≤ s := by
  have hs' : firstIdxFrom 1 (fun x => decide ((0 : ℚ) ≤ x))
      (suffixMins (diff_cum (clampInputs c))) = some s := hs
  have h1 : 1 ≤ s := firstIdxFrom_ge _ _ _ _ hs'
  obtain ⟨j, rfl⟩ : ∃ j, s = 1 + j := ⟨s - 1, by omega⟩
  rw [firstIdxFrom_eq_some_iff] at hs'
  obtain ⟨hjlen, hpj, -⟩ := hs'
  rw [length_suffixMins] at hjlen
  have hpj' : 0 ≤ (suffixMins (diff_cum (clampInputs c))).getD j 0 :=
    of_decide_eq_true hpj
  have hdiffj : 0 ≤ (diff_cum (clampInputs c)).getD j 0 :=
    (getD_suffixMins_nonneg_iff _ j hjlen).mp hpj' j le_rfl hjlen
  obtain ⟨i, hi, hile⟩ := firstIdxFrom_found_le 1 j (fun x => decide ((0 : ℚ) ≤ x))
    (diff_cum (clampInputs c)) hjlen (decide_eq_true hdiffj)
  have hb' : firstIdxFrom 1 (fun x => decide ((0 : ℚ) ≤ x))
      (diff_cum (clampInputs c)) = some b := hb
  rw [hb'] at hi
  have hbi : b = i := Option.some.inj hi
  omega

/-- Scenario used to refute C1 as stated: one-day outage, one unit produced
per day at price `0` with non-power variable cost `5`, every other cost `0`.
The rent strategy then loses `5` per outage day even at rental price `0`, so
the computed indifference price is negative. -/
def cxC1cfg : ScenarioInputs where
  outage_days := 1
  production_per_day := 1
  price_per_unit := 0
  non_power_variable_cost_per_unit := 5
  fixed_costs_per_day := 0
  stop_penalty_per_day := 0
  fuel_method := "per_day"
  diesel_price_per_liter := 0
  liters_per_day := 0
  liters_per_unit := 0
  rental_cost_per_day := 0
  mobilization_cost := 0
  minimum_rental_days := 0

/-- C1 counterexample: a configuration with `billed_days = 1 > 0` whose
computed `max_rental_cost_per_day` is `-5`; re-running with
`rental_cost_per_day := -5` clamps the negative price back to `0` (line 73 of
the source), so the incremental total stays `-5` instead of `0`. -/
theorem C1_counterexample :
    0 < (compute_stop_vs_rent cxC1cfg).billed_days ∧
    (compute_stop_vs_rent cxC1cfg).max_rental_cost_per_day = some (-5) ∧
    (compute_stop_vs_rent
      { cxC1cfg with rental_cost_per_day := -5 }).incremental_total ≠ 0 := by
  refine ⟨?_, ?_, ?_⟩ <;>
    norm_num [cxC1cfg, compute_stop_vs_rent, compute_core, clampInputs, _clamp_non_negative,
      _safe_int, _compute_fuel_cost_per_day, billed_days, horizon_days, revenue_per_day,
      non_power_variable_per_day, mobilization_per_billed_day, stop_profit_daily,
      rent_profit_daily, stop_profit_on_day, rent_profit_on_day, cumulative, cumulativeFrom,
      stop_cum, rent_cum, diff_cum, total_stop, total_rent, incremental_total,
      max_rental_cost_per_day, (show List.range 1 = [0] from rfl)]

/-- C1 (amended): for every configuration with `billed_days > 0` whose
computed `max_rental_cost_per_day` is non-negative, re-running
`compute_stop_vs_rent` with `rental_cost_per_day` set to that value yields an
`incremental_total` of exactly `0` (in rational arithmetic).  The
non-negativity proviso is forced by the clamp of line 73: a negative
indifference price is replaced by `0` on the re-run, as the counterexample
shows. -/
theorem C1_indifference_amended (c : ScenarioInputs) (m : ℚ)
    (hb : 0 < (compute_stop_vs_rent c).billed_days)
    (hm : (compute_stop_vs_rent c).max_rental_cost_per_day = some m)
    (hm0 : 0 ≤ m) :
    (compute_stop_vs_rent { c with rental_cost_per_day := m }).incremental_total = 0 := by
  rw [compute_incremental_of_rental c m hm0]
  rw [compute_max_rental_eq c hb] at hm
  have hmval := Option.some.inj hm
  have hbq : (((compute_stop_vs_rent c).billed_days : Nat) : ℚ) ≠ 0 := by
    exact_mod_cast Nat.pos_iff_ne_zero.mp hb
  have hstop0 : (compute_stop_vs_rent { c with rental_cost_per_day := 0 }).total_stop
      = (compute_stop_vs_rent c).total_stop := by
    show total_stop (clampInputs { c with rental_cost_per_day := 0 })
        = total_stop (clampInputs c)
    rw [clampInputs_set_rental c 0]
    exact total_stop_set_rental _ _
  have h0 : (compute_stop_vs_rent { c with rental_cost_per_day := 0 }).incremental_total
      = (compute_stop_vs_rent { c with rental_cost_per_day := 0 }).total_rent
        - (compute_stop_vs_rent c).total_stop := by
    rw [show (compute_stop_vs_rent { c with rental_cost_per_day := 0 }).incremental_total
        = (compute_stop_vs_rent { c with rental_cost_per_day := 0 }).total_rent
          - (compute_stop_vs_rent { c with rental_cost_per_day := 0 }).total_stop from rfl,
      hstop0]
  rw [h0, ← hmval, div_mul_cancel₀ _ hbq]
  ring

/-- Abbreviation for the sweep's `k`-th sampled price, `upper * k / (steps - 1)`
(line 238). -/
def sweep_price (c : ScenarioInputs) (base : SimResult) (k : Nat) : ℚ :=
  sweep_upper c base * (k : ℚ) / ((60 : ℚ) - 1)

theorem sweep_price_nonneg (c : ScenarioInputs) (base : SimResult) (k : Nat)
    (hup : 0 ≤ sweep_upper c base) : 0 ≤ sweep_price c base k := by
  unfold sweep_price
  positivity

theorem sweep_price_mono (c : ScenarioInputs) (base : SimResult) {i j : Nat}
    (hij : i ≤ j) (hup : 0 ≤ sweep_upper c base) :
    sweep_price c base i ≤ sweep_price c base j := by
  unfold sweep_price
  have hcast : ((i : ℚ)) ≤ (j : ℚ) := by exact_mod_cast hij
  have hnum : sweep_upper c base * (i : ℚ) ≤ sweep_upper c base * (j : ℚ) :=
    mul_le_mul_of_nonneg_left hcast hup
  have h59 : (0 : ℚ) < (60 : ℚ) - 1 := by norm_num
  exact (div_le_div_iff_of_pos_right h59).mpr hnum

theorem sweep_upper_pos (c : ScenarioInputs) (base : SimResult) :
    0 < sweep_upper c base := by
  have h1 : (0 : ℚ) < max (2 * _clamp_non_negative c.rental_cost_per_day) 1 :=
    lt_of_lt_of_le one_pos (le_max_right _ _)
  cases hmr : base.max_rental_cost_per_day with
  | none =>
    simp only [sweep_upper, hmr]
    split
    · norm_num
    · exact h1
  | some m =>
    simp only [sweep_upper, hmr]
    split
    · norm_num
    · exact lt_of_lt_of_le h1 (le_max_left _ _)

/-- C2: with `billed_days > 0`, the incremental total is monotonically
non-increasing in the (non-negative) hypothetical rental price, and in
particular the sensitivity sweep's sampled incremental-benefit values are
non-increasing along the sweep's increasing price grid. -/
theorem C2_incremental_monotone (c : ScenarioInputs)
    (_hb : 0 < (compute_stop_vs_rent c).billed_days) :
    (∀ r1 r2 : ℚ, 0 ≤ r1 → r1 ≤ r2 →
      (compute_stop_vs_rent { c with rental_cost_per_day := r2 }).incremental_total
        ≤ (compute_stop_vs_rent { c with rental_cost_per_day := r1 }).incremental_total) ∧
    (∀ i j : Nat, i ≤ j →
      j < (incremental_values c (compute_stop_vs_rent c)).length →
      (incremental_values c (compute_stop_vs_rent c)).getD j 0
        ≤ (incremental_values c (compute_stop_vs_rent c)).getD i 0) := by
  have key : ∀ r1 r2 : ℚ, 0 ≤ r1 → r1 ≤ r2 →
      (compute_stop_vs_rent { c with rental_cost_per_day := r2 }).incremental_total
        ≤ (compute_stop_vs_rent { c with rental_cost_per_day := r1 }).incremental_total := by
    intro r1 r2 h1 h12
    rw [compute_incremental_of_rental c r1 h1,
      compute_incremental_of_rental c r2 (le_trans h1 h12)]
    have hbq : (0 : ℚ) ≤ (((compute_stop_vs_rent c).billed_days : Nat) : ℚ) :=
      Nat.cast_nonneg _
    have := mul_le_mul_of_nonneg_right h12 hbq
    linarith
  refine ⟨key, ?_⟩
  have hlen : (incremental_values c (compute_stop_vs_rent c)).length = 60 := by
    rw [incremental_values, List.length_map, rental_values, List.length_map,
      List.length_range]
  have hup : (0 : ℚ) < sweep_upper c (compute_stop_vs_rent c) :=
    sweep_upper_pos c (compute_stop_vs_rent c)
  have hval : ∀ k, k < 60 →
      (incremental_values c (compute_stop_vs_rent c)).getD k 0
        = (compute_stop_vs_rent
            { c with rental_cost_per_day := sweep_price c (compute_stop_vs_rent c) k
            }).incremental_total := by
    intro k hk
    have hk1 : k < (incremental_values c (compute_stop_vs_rent c)).length := by
      rw [hlen]
      exact hk
    rw [getD_of_lt _ _ hk1]
    simp [incremental_values, rental_values, sweep_price]
  intro i j hij hjlen
  rw [hlen] at hjlen
  rw [hval j hjlen, hval i (by omega)]
  apply key
  · exact sweep_price_nonneg c (compute_stop_vs_rent c) i hup.le
  · exact sweep_price_mono c (compute_stop_vs_rent c) hij hup.le

/-! ### Witness configurations and witness theorems

Each witness instantiates its claim's theorem at a concrete configuration,
discharging every hypothesis by evaluating the embedded computation there. -/

/-- All-zero configuration used as a base for concrete witnesses. -/
def baseCfg : ScenarioInputs where
  outage_days := 0
  production_per_day := 0
  price_per_unit := 0
  non_power_variable_cost_per_unit := 0
  fixed_costs_per_day := 0
  stop_penalty_per_day := 0
  fuel_method := "per_day"
  diesel_price_per_liter := 0
  liters_per_day := 0
  liters_per_unit := 0
  rental_cost_per_day := 0
  mobilization_cost := 0
  minimum_rental_days := 0

def wC1cfg : ScenarioInputs :=
  { baseCfg with outage_days := 1, fixed_costs_per_day := 1000, rental_cost_per_day := 200 }

/-- Witness for C1 (amended): on `wC1cfg` the billed period is one day, the
computed indifference price is `0 ≥ 0`, and re-running at that price gives an
incremental total of exactly `0`. -/
theorem C1_indifference_amended_witness :
    0 < (compute_stop_vs_rent wC1cfg).billed_days ∧
    (compute_stop_vs_rent wC1cfg).max_rental_cost_per_day = some 0 ∧
    (0 : ℚ) ≤ 0 ∧
    (compute_stop_vs_rent { wC1cfg with rental_cost_per_day := 0 }).incremental_total = 0 := by
  have h1 : 0 < (compute_stop_vs_rent wC1cfg).billed_days := by
    norm_num [wC1cfg, baseCfg, compute_stop_vs_rent, compute_core, clampInputs,
      _clamp_non_negative, _safe_int, billed_days]
  have h2 : (compute_stop_vs_rent wC1cfg).max_rental_cost_per_day = some 0 := by
    norm_num [wC1cfg, baseCfg, compute_stop_vs_rent, compute_core, clampInputs,
      _clamp_non_negative, _safe_int, _compute_fuel_cost_per_day, billed_days, horizon_days,
      revenue_per_day, non_power_variable_per_day, mobilization_per_billed_day,
      stop_profit_daily, rent_profit_daily, stop_profit_on_day, rent_profit_on_day,
      cumulative, cumulativeFrom, stop_cum, rent_cum, diff_cum, total_stop, total_rent,
      max_rental_cost_per_day, (show List.range 1 = [0] from rfl)]
  exact ⟨h1, h2, le_rfl, C1_indifference_amended wC1cfg 0 h1 h2 le_rfl⟩

def wC2cfg : ScenarioInputs :=
  { baseCfg with outage_days := 1, fixed_costs_per_day := 1000, rental_cost_per_day := 200 }

/-- Witness for C2: on `wC2cfg` the billed period is positive, and the
incremental total at rental price `1` is no larger than at price `0`. -/
theorem C2_incremental_monotone_witness :
    0 < (compute_stop_vs_rent wC2cfg).billed_days ∧
    (compute_stop_vs_rent { wC2cfg with rental_cost_per_day := 1 }).incremental_total
      ≤ (compute_stop_vs_rent { wC2cfg with rental_cost_per_day := 0 }).incremental_total := by
  have h1 : 0 < (compute_stop_vs_rent wC2cfg).billed_days := by
    norm_num [wC2cfg, baseCfg, compute_stop_vs_rent, compute_core, clampInputs,
      _clamp_non_negative, _safe_int, billed_days]
  exact ⟨h1, (C2_incremental_monotone wC2cfg h1).1 0 1 le_rfl zero_le_one⟩

def wC3cfg : ScenarioInputs :=
  { baseCfg with outage_days := 1 }

/-- Witness for C3: on `wC3cfg` the stable break-even day is day `1`, and the
theorem yields the characterizing properties at that day. -/
theorem C3_stable_break_even_characterization_witness :
    (compute_stop_vs_rent wC3cfg).stable_break_even_day = some 1 ∧
    (1 ≤ 1 ∧ 1 ≤ (compute_stop_vs_rent wC3cfg).horizon_days ∧
      (∀ k, 1 ≤ k → k ≤ (compute_stop_vs_rent wC3cfg).horizon_days →
        0 ≤ (compute_stop_vs_rent wC3cfg).diff_cum.getD (k - 1) 0) ∧
      (∀ e, 1 ≤ e → e < 1 →
        ¬ (∀ k, e ≤ k → k ≤ (compute_stop_vs_rent wC3cfg).horizon_days →
          0 ≤ (compute_stop_vs_rent wC3cfg).diff_cum.getD (k - 1) 0))) := by
  have h1 : (compute_stop_vs_rent wC3cfg).stable_break_even_day = some 1 := by
    norm_num [wC3cfg, baseCfg, compute_stop_vs_rent, compute_core, clampInputs,
      _clamp_non_negative, _safe_int, _compute_fuel_cost_per_day, billed_days, horizon_days,
      revenue_per_day, non_power_variable_per_day, mobilization_per_billed_day,
      stop_profit_daily, rent_profit_daily, stop_profit_on_day, rent_profit_on_day,
      cumulative, cumulativeFrom, stop_cum, rent_cum, diff_cum, suffixMins, firstIdxFrom,
      stable_break_even_day, (show List.range 1 = [0] from rfl)]
  exact ⟨h1, (C3_stable_break_even_characterization wC3cfg).1 1 h1⟩

def wC4cfg : ScenarioInputs :=
  { baseCfg with fixed_costs_per_day := 5 }

/-- Witness for C4: `wC4cfg` has `outage_days = 0` and the theorem yields
`billed_days = 0` there. -/
theorem C4_zero_outage_degeneracy_witness :
    wC4cfg.outage_days = 0 ∧ (compute_stop_vs_rent wC4cfg).billed_days = 0 :=
  ⟨rfl, (C4_zero_outage_degeneracy wC4cfg rfl).1⟩

def wC5cfg : ScenarioInputs :=
  { baseCfg with outage_days := 2, fixed_costs_per_day := 10 }

/-- Witness for C5: `-1 < 0` both as a rational and as an integer, and on
`wC5cfg` a production of `-1` computes the same result as production `0`. -/
theorem C5_negative_fields_clamped_witness :
    (-1 : ℚ) < 0 ∧ (-1 : Int) < 0 ∧
    compute_stop_vs_rent { wC5cfg with production_per_day := -1 }
      = compute_stop_vs_rent { wC5cfg with production_per_day := 0 } :=
  ⟨by norm_num, by norm_num,
    (C5_negative_fields_clamped wC5cfg (-1) (-1) (by norm_num) (by norm_num)).1⟩

def wC6cfg : ScenarioInputs :=
  { baseCfg with outage_days := 1 }

/-- Witness for C6: on `wC6cfg` both break-even days are present (both day
`1`) and the stable one is `≥` the first crossing. -/
theorem C6_stable_ge_first_crossing_witness :
    (compute_stop_vs_rent wC6cfg).break_even_day = some 1 ∧
    (compute_stop_vs_rent wC6cfg).stable_break_even_day = some 1 ∧
    (1 : Nat) ≤ 1 := by
  have h1 : (compute_stop_vs_rent wC6cfg).break_even_day = some 1 := by
    norm_num [wC6cfg, baseCfg, compute_stop_vs_rent, compute_core, clampInputs,
      _clamp_non_negative, _safe_int, _compute_fuel_cost_per_day, billed_days, horizon_days,
      revenue_per_day, non_power_variable_per_day, mobilization_per_billed_day,
      stop_profit_daily, rent_profit_daily, stop_profit_on_day, rent_profit_on_day,
      cumulative, cumulativeFrom, stop_cum, rent_cum, diff_cum, firstIdxFrom,
      break_even_day, (show List.range 1 = [0] from rfl)]
  have h2 : (compute_stop_vs_rent wC6cfg).stable_break_even_day = some 1 := by
    norm_num [wC6cfg, baseCfg, compute_stop_vs_rent, compute_core, clampInputs,
      _clamp_non_negative, _safe_int, _compute_fuel_cost_per_day, billed_days, horizon_days,
      revenue_per_day, non_power_variable_per_day, mobilization_per_billed_day,
      stop_profit_daily, rent_profit_daily, stop_profit_on_day, rent_profit_on_day,
      cumulative, cumulativeFrom, stop_cum, rent_cum, diff_cum, suffixMins, firstIdxFrom,
      stable_break_even_day, (show List.range 1 = [0] from rfl)]
  exact ⟨h1, h2, C6_stable_ge_first_crossing wC6cfg 1 1 h1 h2⟩

def wC8cfg : ScenarioInputs :=
  { baseCfg with mobilization_cost := 7 }

/-- Witness for C8: `wC8cfg` has a zero billed period, and the theorem yields
the two guarded scalars there. -/
theorem C8_division_guards_witness :
    (compute_stop_vs_rent wC8cfg).billed_days = 0 ∧
    ((compute_stop_vs_rent wC8cfg).mobilization_per_billed_day = 0 ∧
      (compute_stop_vs_rent wC8cfg).max_rental_cost_per_day = none) := by
  have h1 : (compute_stop_vs_rent wC8cfg).billed_days = 0 := by
    norm_num [wC8cfg, baseCfg, compute_stop_vs_rent, compute_core, clampInputs,
      _clamp_non_negative, _safe_int, billed_days]
  exact ⟨h1, C8_division_guards wC8cfg h1⟩

def wC10cfg : ScenarioInputs :=
  { baseCfg with outage_days := 1, fixed_costs_per_day := 3 }

/-- Witness for C10: on `wC10cfg` day `1` lies in the horizon and its stop
profit is non-positive. -/
theorem C10_stop_profit_nonpositive_witness :
    (1 : Nat) ≤ 1 ∧ 1 ≤ (compute_stop_vs_rent wC10cfg).horizon_days ∧
    (compute_stop_vs_rent wC10cfg).stop_profit_daily.getD 0 0 ≤ 0 := by
  have hh : 1 ≤ (compute_stop_vs_rent wC10cfg).horizon_days := by
    norm_num [wC10cfg, baseCfg, compute_stop_vs_rent, compute_core, clampInputs,
      _clamp_non_negative, _safe_int, billed_days, horizon_days]
  exact ⟨le_rfl, hh, (C10_stop_profit_nonpositive wC10cfg).1 1 le_rfl hh⟩
